import Mathlib

/-!
Verification development for the construction-sales-platform matching core.

The definitions below are a shallow embedding of the JavaScript sources
`src/services/productMatcher.js` and `src/utils/csvParser.js`:

* JS strings stay `String`; the semicolon-list fields of a product
  (`restrictedStates`, `applicableProjectTypes`, `certifications`) stay raw
  strings and are split/trimmed exactly where the JS splits them.  The JS
  string helpers `split(';')`, `trim()` and `String.prototype.includes`
  (substring test) are re-implemented by structural recursion over
  `String.data` so that every definition evaluates inside the kernel.
* JS numbers are modelled as `Int` (counts, scores, prices and budgets;
  no claim involves fractional amounts).
* `Date` values are modelled at day granularity as `Int` day numbers:
  `setDate(+n)` becomes `+ n`, date comparison becomes `≤`, and
  `Math.floor((a - b) / msPerDay)` on day-aligned dates is exactly `a - b`.
* JS `undefined`/`null` option fields become `Option`; the numeric-falsiness
  of `0` (in `if (spec.maxBudget && ...)`) is modelled explicitly.
* The reason/warning message strings accumulated by `calculateMatchScore`
  are not modelled (no claim mentions them); the risk strings pushed by
  `analyzeProject` are modelled as a structured `Risk` datatype carrying
  the same data the template strings interpolate.
* `Array.prototype.sort` with comparator `(a, b) => b.matchScore -
  a.matchScore` is mandated stable by the ECMAScript standard; it is
  modelled by a stable insertion sort (`sortByScoreDesc`), which produces
  the same list as any stable sort for this comparator.
-/

/-- Test whether the first list is an initial segment of the second
(helper for the substring test of JS `String.prototype.includes`). -/
def startsWithL : List Char → List Char → Bool
  | [], _ => true
  | _ :: _, [] => false
  | n :: ns, h :: hs => n == h && startsWithL ns hs

/-- Test whether `needle` occurs contiguously inside the second list. -/
def hasSub (needle : List Char) : List Char → Bool
  | [] => needle.isEmpty
  | h :: hs => startsWithL needle (h :: hs) || hasSub needle hs

/-- JS `hay.includes(needle)` — substring containment, as used on
`product.applicableProjectTypes` at productMatcher.js:184. -/
def jsIncludes (hay needle : String) : Bool :=
  hasSub needle.data hay.data

/-- Split a character list at every `;`, keeping empty segments
(the semantics of JS `String.prototype.split(';')`). -/
def splitSemiAux (acc : List Char) : List Char → List (List Char)
  | [] => [acc.reverse]
  | c :: cs => if c = ';' then acc.reverse :: splitSemiAux [] cs else splitSemiAux (c :: acc) cs

/-- Drop leading and trailing whitespace (JS `String.prototype.trim`). -/
def trimChars (l : List Char) : List Char :=
  ((l.dropWhile Char.isWhitespace).reverse.dropWhile Char.isWhitespace).reverse

/-- The idiom `s.split(';').map(x => x.trim()).filter(x => x)` used by every
semicolon-list field reader in productMatcher.js (lines 20–23, 41–44, 76–79, 191). -/
def splitSemi (s : String) : List String :=
  ((splitSemiAux [] s.data).map (fun cs => String.mk (trimChars cs))).filter (fun t => t ≠ "")

/-- Remote-state list of csvParser.js:130. -/
def remoteStates : List String := ["AK", "HI", "ME", "MT", "WY", "ND", "SD"]

/-- Regional grouping table of csvParser.js:140-147, in source order. -/
def regionsList : List (String × List String) :=
  [("northeast", ["ME", "NH", "VT", "MA", "RI", "CT", "NY", "NJ", "PA"]),
   ("southeast", ["MD", "DE", "VA", "WV", "NC", "SC", "GA", "FL", "KY", "TN", "AL", "MS", "LA", "AR"]),
   ("midwest", ["OH", "IN", "IL", "MI", "WI", "MN", "IA", "MO", "ND", "SD", "NE", "KS"]),
   ("southwest", ["TX", "OK", "NM", "AZ"]),
   ("west", ["CA", "NV", "OR", "WA", "ID", "UT", "CO", "WY", "MT"]),
   ("other", ["AK", "HI"])]

/-- The region-lookup loop of csvParser.js:149-155: the last grouping that
contains the state wins (`null` when no grouping contains it). -/
def regionOf (state : String) : Option String :=
  regionsList.foldl (fun acc p => if p.2.contains state then some p.1 else acc) none

/-- `calculateShippingDays` of csvParser.js:124-162. -/
def calculateShippingDays (warehouseState destinationState : String) : Int :=
  if warehouseState = destinationState then 2
  else
    let isWarehouseRemote := remoteStates.contains warehouseState
    let isDestinationRemote := remoteStates.contains destinationState
    let baseDays : Int := 5
    let baseDays := if isWarehouseRemote then baseDays + 3 else baseDays
    let baseDays := if isDestinationRemote then baseDays + 3 else baseDays
    let warehouseRegion := regionOf warehouseState
    let destinationRegion := regionOf destinationState
    let baseDays :=
      if warehouseRegion = destinationRegion ∧ warehouseRegion ≠ some "other" then baseDays - 2
      else baseDays
    max baseDays 2

/-- Product record (fields of the CSV-backed product objects that the
matching core reads; semicolon-list fields kept as raw strings). -/
structure Product where
  productName : String
  category : String
  price : Int
  warehouseLocation : String
  restrictedStates : String
  applicableProjectTypes : String
  certifications : String
  stockQty : Int
  leadTimeDays : Int
  warrantyYears : Int
  installationDifficulty : String
  ecoFriendly : String
  sustainableSource : String
  recyclable : String
deriving DecidableEq, Repr

/-- Project specification as consumed by the matching core.  Dates are day
numbers; `maxBudget`, `requiredCategories` and `requiredCertifications`
are `Option` to model absent (`undefined`) JS fields. -/
structure Specification where
  projectType : String
  location : String
  projectStartDate : Int
  projectEndDate : Int
  maxBudget : Option Int
  requiredCategories : Option (List String)
  requireCertifications : Bool
  requiredCertifications : Option (List String)
  ecoFriendlyPreference : Bool
  sustainablePreference : Bool
  installationCapability : String
deriving DecidableEq, Repr

/-- The preferences object passed to `filterByEcoPreferences`
(productMatcher.js:295-298 passes only the first two fields, so the call
site sets `recyclable := false`). -/
structure EcoPreferences where
  ecoFriendly : Bool
  sustainable : Bool
  recyclable : Bool
deriving DecidableEq, Repr

/-- Return value of `checkTimeline` (productMatcher.js:159-165). -/
structure TimelineInfo where
  estimatedShippingDays : Int
  totalLeadTime : Int
  estimatedDelivery : Int
  meetsTimeline : Bool
  daysMargin : Int
deriving DecidableEq, Repr

/-- Return value of `calculateMatchScore` (productMatcher.js:258-264):
the product, the clamped score, and the spread timeline fields. -/
structure MatchResult where
  product : Product
  matchScore : Int
  estimatedShippingDays : Int
  totalLeadTime : Int
  estimatedDelivery : Int
  meetsTimeline : Bool
  daysMargin : Int
deriving DecidableEq, Repr

/-- `filterByLocation` of productMatcher.js:15-27 (empty string is the JS
falsy no-restrictions case). -/
def filterByLocation (products : List Product) (stateCode : String) : List Product :=
  products.filter (fun product =>
    if product.restrictedStates == "" then true
    else !((splitSemi product.restrictedStates).contains stateCode))

/-- `filterByProjectType` of productMatcher.js:35-48. -/
def filterByProjectType (products : List Product) (projectType : String) : List Product :=
  if projectType == "" then products
  else products.filter (fun product =>
    if product.applicableProjectTypes == "" then false
    else (splitSemi product.applicableProjectTypes).contains projectType)

/-- `filterByCategories` of productMatcher.js:56-62. -/
def filterByCategories (products : List Product) (categories : Option (List String)) : List Product :=
  match categories with
  | none => products
  | some cats =>
    if cats.length = 0 then products
    else products.filter (fun product => cats.contains product.category)

/-- `filterByCertifications` of productMatcher.js:70-86. -/
def filterByCertifications (products : List Product) (requiredCerts : Option (List String)) : List Product :=
  match requiredCerts with
  | none => products
  | some reqs =>
    if reqs.length = 0 then products
    else products.filter (fun product =>
      if product.certifications == "" then false
      else reqs.all (fun reqCert => (splitSemi product.certifications).contains reqCert))

/-- `filterByEcoPreferences` of productMatcher.js:123-139. -/
def filterByEcoPreferences (products : List Product) (preferences : EcoPreferences) : List Product :=
  let filtered := products
  let filtered := if preferences.ecoFriendly then filtered.filter (fun p => p.ecoFriendly == "Yes") else filtered
  let filtered := if preferences.sustainable then filtered.filter (fun p => p.sustainableSource == "Yes") else filtered
  let filtered := if preferences.recyclable then filtered.filter (fun p => p.recyclable == "Yes") else filtered
  filtered

/-- `checkTimeline` of productMatcher.js:149-166 at day granularity. -/
def checkTimeline (product : Product) (requiredDate : Int) (projectState : String) (orderDate : Int) : TimelineInfo :=
  let shippingDays := calculateShippingDays product.warehouseLocation projectState
  let totalDays := product.leadTimeDays + shippingDays
  let deliveryDate := orderDate + totalDays
  { estimatedShippingDays := shippingDays
    totalLeadTime := totalDays
    estimatedDelivery := deliveryDate
    meetsTimeline := decide (deliveryDate ≤ requiredDate)
    daysMargin := requiredDate - deliveryDate }

/-- Project-type score contribution (productMatcher.js:184-187); note the JS
`String.prototype.includes` substring test on the raw field. -/
def typeBonus (product : Product) (spec : Specification) : Int :=
  if jsIncludes product.applicableProjectTypes spec.projectType then 10 else 0

/-- Certification score contribution (productMatcher.js:190-200). -/
def certBonus (product : Product) (spec : Specification) : Int :=
  match spec.requiredCertifications with
  | none => 0
  | some reqs =>
    if reqs.length > 0 then
      let productCerts := splitSemi product.certifications
      let matchedCerts := reqs.filter (fun reqCert => productCerts.contains reqCert)
      if matchedCerts.length > 0 then min ((matchedCerts.length : Int) * 5) 10 else 0
    else 0

/-- Eco-preference score contribution (productMatcher.js:203-212). -/
def ecoBonus (product : Product) (spec : Specification) : Int :=
  let ecoScore : Int :=
    (if spec.ecoFriendlyPreference && (product.ecoFriendly == "Yes") then 5 else 0) +
    (if spec.sustainablePreference && (product.sustainableSource == "Yes") then 5 else 0)
  min ecoScore 10

/-- Stock score contribution (productMatcher.js:215-220). -/
def stockBonus (product : Product) : Int :=
  if product.stockQty > 0 then 5 else 0

/-- Installation-difficulty score contribution (productMatcher.js:223-231). -/
def installBonus (product : Product) (spec : Specification) : Int :=
  if spec.installationCapability == "DIY" && ["Easy", "Moderate"].contains product.installationDifficulty then 5
  else if spec.installationCapability == "Professional" && (product.installationDifficulty == "Professional Required") then 5
  else 0

/-- Warranty score contribution (productMatcher.js:234-240). -/
def warrantyBonus (product : Product) : Int :=
  if product.warrantyYears ≥ 10 then 3
  else if product.warrantyYears ≥ 5 then 2
  else 0

/-- Timeline score contribution (productMatcher.js:250-256): the single
possibly-negative term. -/
def timelineDelta (meets : Bool) : Int :=
  if meets then 5 else -10

/-- `calculateMatchScore` of productMatcher.js:174-265: the 60-point base
plus the accumulated contributions, clamped to `[0, 100]` at line 260;
the timeline fields are spread into the result. -/
def calculateMatchScore (product : Product) (spec : Specification) : MatchResult :=
  let timeline := checkTimeline product spec.projectEndDate spec.location spec.projectStartDate
  let score : Int :=
    60 + typeBonus product spec + certBonus product spec + ecoBonus product spec
      + stockBonus product + installBonus product spec + warrantyBonus product
      + timelineDelta timeline.meetsTimeline
  { product := product
    matchScore := min (max score 0) 100
    estimatedShippingDays := timeline.estimatedShippingDays
    totalLeadTime := timeline.totalLeadTime
    estimatedDelivery := timeline.estimatedDelivery
    meetsTimeline := timeline.meetsTimeline
    daysMargin := timeline.daysMargin }

/-- Insert into a descending-by-score list, after every strictly greater
score (stable insertion step of the final sort). -/
def insertDesc (x : MatchResult) : List MatchResult → List MatchResult
  | [] => [x]
  | y :: ys => if x.matchScore < y.matchScore then y :: insertDesc x ys else x :: y :: ys

/-- The final sort of productMatcher.js:312, `scored.sort((a, b) =>
b.matchScore - a.matchScore)`: the ECMAScript-mandated stable sort,
realised as stable insertion sort. -/
def sortByScoreDesc : List MatchResult → List MatchResult
  | [] => []
  | x :: xs => insertDesc x (sortByScoreDesc xs)

/-- Filters 1–4 of `findMatchingProducts` (productMatcher.js:275-291):
location, project type, categories (when non-empty), certifications
(when requested and present). -/
def candidatesBeforeEco (allProducts : List Product) (spec : Specification) : List Product :=
  let filtered := filterByLocation allProducts spec.location
  let filtered := filterByProjectType filtered spec.projectType
  let filtered :=
    match spec.requiredCategories with
    | some cats => if cats.length > 0 then filterByCategories filtered (some cats) else filtered
    | none => filtered
  let filtered :=
    if spec.requireCertifications then
      match spec.requiredCertifications with
      | some reqs => filterByCertifications filtered (some reqs)
      | none => filtered
    else filtered
  filtered

/-- The environmental narrowing step of `findMatchingProducts`
(productMatcher.js:293-304): the eco filter is applied only when it leaves
at least one candidate. -/
def candidatesAfterFilters (allProducts : List Product) (spec : Specification) : List Product :=
  let filtered := candidatesBeforeEco allProducts spec
  if spec.ecoFriendlyPreference || spec.sustainablePreference then
    let ecoFiltered := filterByEcoPreferences filtered
      { ecoFriendly := spec.ecoFriendlyPreference
        sustainable := spec.sustainablePreference
        recyclable := false }
    if ecoFiltered.length > 0 then ecoFiltered else filtered
  else filtered

/-- The scored-but-unsorted list of productMatcher.js:307-309 (the
filter-chain order the stable sort preserves on ties). -/
def preSortMatches (allProducts : List Product) (spec : Specification) : List MatchResult :=
  (candidatesAfterFilters allProducts spec).map (fun product => calculateMatchScore product spec)

/-- `findMatchingProducts` of productMatcher.js:273-315. -/
def findMatchingProducts (allProducts : List Product) (spec : Specification) : List MatchResult :=
  sortByScoreDesc (preSortMatches allProducts spec)

/-- One step of the `byCategory` grouping loop of productMatcher.js:340-346:
append the match to its category's bucket, creating the bucket on first
encounter (JS object keys keep insertion order). -/
def addMatch (acc : List (String × List MatchResult)) (m : MatchResult) : List (String × List MatchResult) :=
  if acc.any (fun p => p.1 == m.product.category) then
    acc.map (fun p => if p.1 == m.product.category then (p.1, p.2 ++ [m]) else p)
  else acc ++ [(m.product.category, [m])]

/-- The `byCategory` grouping of productMatcher.js:339-346. -/
def groupByCategory (ms : List MatchResult) : List (String × List MatchResult) :=
  ms.foldl addMatch []

/-- One entry of `analysis.categoryBreakdown` (productMatcher.js:352-356). -/
structure BreakdownEntry where
  product : String
  cost : Int
  deliveryDate : Int
deriving DecidableEq, Repr

/-- The `timelineAnalysis` sub-object (productMatcher.js:329-333). -/
structure TimelineAnalysis where
  feasible : Bool
  criticalPath : List String
  concerns : List String
deriving DecidableEq, Repr

/-- The entries pushed onto `analysis.risks` (productMatcher.js:363, 373,
383), as structured data instead of interpolated strings. -/
inductive Risk where
  | overBudget (cost budget : Int)
  | cannotMeetTimeline (count : Nat)
  | missingCategories (categories : List String)
deriving DecidableEq, Repr

/-- The analysis object returned by `analyzeProject`. -/
structure ProjectAnalysis where
  specification : Specification
  recommendedProducts : List MatchResult
  estimatedTotalCost : Int
  categoryBreakdown : List (String × BreakdownEntry)
  timelineAnalysis : TimelineAnalysis
  risks : List Risk
  recommendations : List String
deriving DecidableEq, Repr

/-- The breakdown built by the loop of productMatcher.js:349-359: the head
of each category bucket in key order (empty buckets cannot occur but the
JS guards on `best`, mirrored here). -/
def breakdownOf : List (String × List MatchResult) → List (String × BreakdownEntry)
  | [] => []
  | (c, ms) :: rest =>
    match ms with
    | [] => breakdownOf rest
    | best :: _ =>
      (c, { product := best.product.productName
            cost := best.product.price
            deliveryDate := best.estimatedDelivery }) :: breakdownOf rest

/-- The `estimatedTotalCost` accumulated by the same loop
(productMatcher.js:357). -/
def totalCostOf : List (String × List MatchResult) → Int
  | [] => 0
  | (_, ms) :: rest =>
    match ms with
    | [] => totalCostOf rest
    | best :: _ => best.product.price + totalCostOf rest

/-- `analyzeProject` of productMatcher.js:323-389.  `spec.maxBudget` is
checked for JS truthiness (absent or `0` skips the budget check); risks
and recommendations are pushed in source order: budget, timeline,
missing categories. -/
def analyzeProject (matchedProducts : List MatchResult) (spec : Specification) : ProjectAnalysis :=
  let byCategory := groupByCategory matchedProducts
  let categoryBreakdown := breakdownOf byCategory
  let estimatedTotalCost := totalCostOf byCategory
  let budgetRisks : List Risk :=
    match spec.maxBudget with
    | some b => if b ≠ 0 ∧ estimatedTotalCost > b then [Risk.overBudget estimatedTotalCost b] else []
    | none => []
  let budgetRecs : List String :=
    match spec.maxBudget with
    | some b => if b ≠ 0 ∧ estimatedTotalCost > b then ["Consider adjusting product selections or increasing budget"] else []
    | none => []
  let lateProducts := matchedProducts.filter (fun m => !m.meetsTimeline)
  let timelineRisks : List Risk :=
    if lateProducts.length > 0 then [Risk.cannotMeetTimeline lateProducts.length] else []
  let timelineRecs : List String :=
    if lateProducts.length > 0 then ["Consider adjusting timeline or selecting faster-shipping alternatives"] else []
  let missing : List String :=
    match spec.requiredCategories with
    | some cats => cats.filter (fun cat => !(categoryBreakdown.map Prod.fst).contains cat)
    | none => []
  let missingRisks : List Risk :=
    if missing.length > 0 then [Risk.missingCategories missing] else []
  let missingRecs : List String :=
    if missing.length > 0 then ["Expand search criteria or consider alternative categories"] else []
  { specification := spec
    recommendedProducts := matchedProducts
    estimatedTotalCost := estimatedTotalCost
    categoryBreakdown := categoryBreakdown
    timelineAnalysis :=
      { feasible := lateProducts.isEmpty
        criticalPath := []
        concerns := [] }
    risks := budgetRisks ++ timelineRisks ++ missingRisks
    recommendations := budgetRecs ++ timelineRecs ++ missingRecs }

/-- Modelled from the words of claim C5: the shipping formula in which the
same-group subtraction is withheld whenever the origin or the destination
is in the remote set (the claim's reading, to be compared with
`calculateShippingDays`). -/
def claimC5ShippingDays (warehouseState destinationState : String) : Int :=
  if warehouseState = destinationState then 2
  else
    let base : Int := 5
    let base := if remoteStates.contains warehouseState then base + 3 else base
    let base := if remoteStates.contains destinationState then base + 3 else base
    let base :=
      if regionOf warehouseState = regionOf destinationState ∧ regionOf warehouseState ≠ some "other"
          ∧ ¬ remoteStates.contains warehouseState = true ∧ ¬ remoteStates.contains destinationState = true
      then base - 2 else base
    max base 2

/-- The amended C5 formula: the same-group subtraction is withheld only when
the shared grouping is the `other` group (`AK`/`HI`); remote states that
belong to a geographic grouping, and pairs of unmapped codes (both
groupings absent), do receive it. -/
def amendedC5ShippingDays (warehouseState destinationState : String) : Int :=
  if warehouseState = destinationState then 2
  else
    max ((5 : Int)
      + (if remoteStates.contains warehouseState then 3 else 0)
      + (if remoteStates.contains destinationState then 3 else 0)
      - (if regionOf warehouseState = regionOf destinationState ∧ regionOf warehouseState ≠ some "other" then 2 else 0)) 2

/-- Modelled from the words of claim C7: the first match, in
filter-chain order, of the given category whose score is maximal among
that category's matches. -/
def firstBestIn (pre : List MatchResult) (c : String) : Option MatchResult :=
  let inCat := pre.filter (fun m => m.product.category == c)
  inCat.find? (fun m => inCat.all (fun m2 => m2.matchScore ≤ m.matchScore))

/-- Scenario A product of the spec's acceptance scenario: one-product
catalog, origin = destination = CA, lead time 5, price 100, Lumber,
in stock, no restrictions, Residential-applicable, no certifications,
no warranty, easy installation, not eco. -/
def scenarioAProduct : Product :=
  { productName := "Pine Lumber"
    category := "Lumber"
    price := 100
    warehouseLocation := "CA"
    restrictedStates := ""
    applicableProjectTypes := "Residential"
    certifications := ""
    stockQty := 10
    leadTimeDays := 5
    warrantyYears := 0
    installationDifficulty := "Easy"
    ecoFriendly := "No"
    sustainableSource := "No"
    recyclable := "No" }

/-- Scenario A specification: Residential in CA, days 0..20, budget 200,
no category/certification requirements, no eco preferences, Professional
installation capability. -/
def scenarioASpec : Specification :=
  { projectType := "Residential"
    location := "CA"
    projectStartDate := 0
    projectEndDate := 20
    maxBudget := some 200
    requiredCategories := none
    requireCertifications := false
    requiredCertifications := none
    ecoFriendlyPreference := false
    sustainablePreference := false
    installationCapability := "Professional" }

/-- Scenario A specification with an eco-friendly preference switched on
(used to exercise the graceful eco-degradation path, since the scenario
product is not eco-friendly). -/
def ecoSpec : Specification :=
  { scenarioASpec with ecoFriendlyPreference := true }

/-- Specification with no budget and no required categories (the fully
degenerate analysis input). -/
def emptySpec : Specification :=
  { scenarioASpec with maxBudget := none, requiredCategories := none }

theorem typeBonus_nonneg (product : Product) (spec : Specification) :
    0 ≤ typeBonus product spec := by
  unfold typeBonus; split <;> norm_num

theorem certBonus_nonneg (product : Product) (spec : Specification) :
    0 ≤ certBonus product spec := by
  unfold certBonus
  rcases spec.requiredCertifications with _ | reqs
  · norm_num
  · simp only
    split
    · split
      · exact le_min (by positivity) (by norm_num)
      · norm_num
    · norm_num

theorem ecoBonus_nonneg (product : Product) (spec : Specification) :
    0 ≤ ecoBonus product spec := by
  unfold ecoBonus
  refine le_min ?_ (by norm_num)
  have h1 : (0 : Int) ≤ if spec.ecoFriendlyPreference && (product.ecoFriendly == "Yes") then 5 else 0 := by
    split <;> norm_num
  have h2 : (0 : Int) ≤ if spec.sustainablePreference && (product.sustainableSource == "Yes") then 5 else 0 := by
    split <;> norm_num
  omega

theorem stockBonus_nonneg (product : Product) : 0 ≤ stockBonus product := by
  unfold stockBonus; split <;> norm_num

theorem installBonus_nonneg (product : Product) (spec : Specification) :
    0 ≤ installBonus product spec := by
  unfold installBonus; split
  · norm_num
  · split <;> norm_num

theorem warrantyBonus_nonneg (product : Product) : 0 ≤ warrantyBonus product := by
  unfold warrantyBonus; split
  · norm_num
  · split <;> norm_num

theorem timelineDelta_ge (meets : Bool) : -10 ≤ timelineDelta meets := by
  unfold timelineDelta; split <;> norm_num

/-- C1: for every product and every specification, the matchScore returned
by `calculateMatchScore` lies in `[0, 100]` — the summed bonuses and the
timeline penalty are clamped to that interval before the result is built. -/
theorem c1_matchScore_in_range (product : Product) (spec : Specification) :
    0 ≤ (calculateMatchScore product spec).matchScore ∧
    (calculateMatchScore product spec).matchScore ≤ 100 :=
  ⟨le_min (le_max_right _ _) (by norm_num), min_le_right _ _⟩

/-- C9: for every product and every specification, the matchScore is at
least 50 — the 60-point base is unconditional, every other contribution is
non-negative except the single −10 timeline penalty, so the raw sum never
falls below 50 and the lower clamp bound 0 is never binding. -/
theorem c9_matchScore_at_least_50 (product : Product) (spec : Specification) :
    50 ≤ (calculateMatchScore product spec).matchScore := by
  have ht := typeBonus_nonneg product spec
  have hc := certBonus_nonneg product spec
  have he := ecoBonus_nonneg product spec
  have hs := stockBonus_nonneg product
  have hi := installBonus_nonneg product spec
  have hw := warrantyBonus_nonneg product
  have hd := timelineDelta_ge (checkTimeline product spec.projectEndDate spec.location spec.projectStartDate).meetsTimeline
  show 50 ≤ min (max (60 + typeBonus product spec + certBonus product spec + ecoBonus product spec
      + stockBonus product + installBonus product spec + warrantyBonus product
      + timelineDelta (checkTimeline product spec.projectEndDate spec.location spec.projectStartDate).meetsTimeline) 0) 100
  refine le_min (le_trans ?_ (le_max_left _ _)) (by norm_num)
  omega

/-- C5 counterexample: the claim's formula withholds the same-group
subtraction from every remote origin/destination, but the code excludes
only the `other` group: for ME → NH (remote origin inside the northeast
grouping) the code subtracts and returns 6 while the claimed formula
returns 8. -/
theorem c5_counterexample :
    calculateShippingDays "ME" "NH" = 6 ∧
    claimC5ShippingDays "ME" "NH" = 8 ∧
    calculateShippingDays "ME" "NH" ≠ claimC5ShippingDays "ME" "NH" := by
  refine ⟨by decide, by decide, by decide⟩

/-- C5 amended: `calculateShippingDays` returns 2 on equal codes, and
otherwise 5 plus 3 per remote endpoint, minus 2 exactly when both codes
map to the same grouping value and that grouping is not `other`
(so remote states inside geographic groupings do receive the subtraction,
and only AK/HI — the `other` group — are excluded), floored at 2. -/
theorem c5_amended_shipping (warehouseState destinationState : String) :
    calculateShippingDays warehouseState destinationState =
      amendedC5ShippingDays warehouseState destinationState := by
  simp only [calculateShippingDays, amendedC5ShippingDays]
  split_ifs <;> decide

/-- C10: for distinct region codes that are neither remote nor in any
regional grouping, both lookups return `none`, the absent groupings compare
equal and differ from `other`, so the same-group reduction applies to the
cross-state base of 5 and the function returns 3. -/
theorem c10_unknown_codes (warehouseState destinationState : String)
    (hne : warehouseState ≠ destinationState)
    (hro : remoteStates.contains warehouseState = false)
    (hrd : remoteStates.contains destinationState = false)
    (hgo : regionOf warehouseState = none)
    (hgd : regionOf destinationState = none) :
    calculateShippingDays warehouseState destinationState = 3 := by
  have h1 : warehouseState ∉ remoteStates := by simpa using hro
  have h2 : destinationState ∉ remoteStates := by simpa using hrd
  unfold calculateShippingDays
  rw [if_neg hne]
  simp [h1, h2, hgo, hgd]

/-- C10 witness: two concrete codes outside every table. -/
theorem c10_witness : calculateShippingDays "XX" "YY" = 3 :=
  c10_unknown_codes "XX" "YY" (by decide) (by decide) (by decide) (by decide) (by decide)

/-- C6: the timeline fields of `checkTimeline` satisfy the sign convention:
a positive margin implies the timeline is met, a negative margin holds
exactly when it is not met, and a zero margin (delivery exactly on the end
date) is treated as meeting the timeline. -/
theorem c6_timeline_sign (product : Product) (requiredDate : Int) (projectState : String) (orderDate : Int) :
    (0 < (checkTimeline product requiredDate projectState orderDate).daysMargin →
      (checkTimeline product requiredDate projectState orderDate).meetsTimeline = true) ∧
    ((checkTimeline product requiredDate projectState orderDate).daysMargin < 0 ↔
      (checkTimeline product requiredDate projectState orderDate).meetsTimeline = false) ∧
    ((checkTimeline product requiredDate projectState orderDate).daysMargin = 0 →
      (checkTimeline product requiredDate projectState orderDate).meetsTimeline = true) := by
  simp only [checkTimeline, decide_eq_true_eq, decide_eq_false_iff_not]
  refine ⟨fun h => by omega, ⟨fun h => by omega, fun h => by omega⟩, fun h => by omega⟩

/-- C6 witness: concrete margins on the Scenario A timeline. -/
theorem c6_witness :
    0 < (checkTimeline scenarioAProduct 20 "CA" 0).daysMargin ∧
    (checkTimeline scenarioAProduct 20 "CA" 0).meetsTimeline = true ∧
    (checkTimeline scenarioAProduct 6 "CA" 0).daysMargin < 0 ∧
    (checkTimeline scenarioAProduct 6 "CA" 0).meetsTimeline = false ∧
    (checkTimeline scenarioAProduct 7 "CA" 0).daysMargin = 0 ∧
    (checkTimeline scenarioAProduct 7 "CA" 0).meetsTimeline = true :=
  ⟨by decide,
   (c6_timeline_sign scenarioAProduct 20 "CA" 0).1 (by decide),
   by decide,
   (c6_timeline_sign scenarioAProduct 6 "CA" 0).2.1.1 (by decide),
   by decide,
   (c6_timeline_sign scenarioAProduct 7 "CA" 0).2.2 (by decide)⟩

/-- C2: on the Scenario A input the product passes the location and
project-type filters, is scored exactly 80 (60 base + 10 type + 5 stock +
5 timeline, shipping 2 days, total lead 7, no installation or warranty
bonus), and the analysis of that result has total cost 100 and no risks. -/
theorem c2_scenarioA :
    filterByLocation [scenarioAProduct] scenarioASpec.location = [scenarioAProduct] ∧
    filterByProjectType [scenarioAProduct] scenarioASpec.projectType = [scenarioAProduct] ∧
    (findMatchingProducts [scenarioAProduct] scenarioASpec).map (fun m => m.product) = [scenarioAProduct] ∧
    (findMatchingProducts [scenarioAProduct] scenarioASpec).map (fun m => m.matchScore) = [80] ∧
    (findMatchingProducts [scenarioAProduct] scenarioASpec).map (fun m => m.estimatedShippingDays) = [2] ∧
    (findMatchingProducts [scenarioAProduct] scenarioASpec).map (fun m => m.totalLeadTime) = [7] ∧
    (analyzeProject (findMatchingProducts [scenarioAProduct] scenarioASpec) scenarioASpec).estimatedTotalCost = 100 ∧
    (analyzeProject (findMatchingProducts [scenarioAProduct] scenarioASpec) scenarioASpec).risks = [] := by
  decide

theorem mem_insertDesc {x z : MatchResult} {l : List MatchResult} :
    z ∈ insertDesc x l ↔ z = x ∨ z ∈ l := by
  induction l with
  | nil => simp [insertDesc]
  | cons y ys ih =>
    simp only [insertDesc]
    split
    · simp only [List.mem_cons, ih]
      tauto
    · simp [List.mem_cons]

theorem perm_insertDesc (x : MatchResult) (l : List MatchResult) :
    (insertDesc x l).Perm (x :: l) := by
  induction l with
  | nil => exact List.Perm.refl _
  | cons y ys ih =>
    simp only [insertDesc]
    split
    · exact (ih.cons y).trans (List.Perm.swap x y ys)
    · exact List.Perm.refl _

theorem pairwise_insertDesc {x : MatchResult} {l : List MatchResult}
    (h : l.Pairwise (fun a b => b.matchScore ≤ a.matchScore)) :
    (insertDesc x l).Pairwise (fun a b => b.matchScore ≤ a.matchScore) := by
  induction l with
  | nil => simp [insertDesc]
  | cons y ys ih =>
    rw [List.pairwise_cons] at h
    obtain ⟨hy, hys⟩ := h
    simp only [insertDesc]
    split
    · rename_i hlt
      rw [List.pairwise_cons]
      refine ⟨fun z hz => ?_, ih hys⟩
      rcases mem_insertDesc.1 hz with rfl | hz'
      · exact le_of_lt hlt
      · exact hy z hz'
    · rename_i hge
      rw [List.pairwise_cons, List.pairwise_cons]
      refine ⟨fun z hz => ?_, hy, hys⟩
      rcases List.mem_cons.1 hz with rfl | hz'
      · exact not_lt.1 hge
      · exact le_trans (hy z hz') (not_lt.1 hge)

theorem filter_insertDesc (x : MatchResult) (l : List MatchResult) (s : Int) :
    (insertDesc x l).filter (fun m => m.matchScore == s) =
      if x.matchScore = s then x :: l.filter (fun m => m.matchScore == s)
      else l.filter (fun m => m.matchScore == s) := by
  induction l with
  | nil =>
    by_cases hx : x.matchScore = s <;> simp [insertDesc, List.filter_cons, hx]
  | cons y ys ih =>
    simp only [insertDesc]
    split
    · rename_i hlt
      by_cases hx : x.matchScore = s
      · have hy : ¬ (y.matchScore = s) := by omega
        simp [List.filter_cons, hx, hy, ih]
      · by_cases hy : y.matchScore = s <;> simp [List.filter_cons, hx, hy, ih]
    · by_cases hx : x.matchScore = s <;> by_cases hy : y.matchScore = s <;>
        simp [List.filter_cons, hx, hy]

theorem sortByScoreDesc_perm (l : List MatchResult) : (sortByScoreDesc l).Perm l := by
  induction l with
  | nil => exact List.Perm.refl _
  | cons x xs ih => exact (perm_insertDesc x (sortByScoreDesc xs)).trans (ih.cons x)

theorem sortByScoreDesc_pairwise (l : List MatchResult) :
    (sortByScoreDesc l).Pairwise (fun a b => b.matchScore ≤ a.matchScore) := by
  induction l with
  | nil => simp [sortByScoreDesc]
  | cons x xs ih => exact pairwise_insertDesc ih

theorem sortByScoreDesc_filter (l : List MatchResult) (s : Int) :
    (sortByScoreDesc l).filter (fun m => m.matchScore == s) =
      l.filter (fun m => m.matchScore == s) := by
  induction l with
  | nil => rfl
  | cons x xs ih =>
    simp only [sortByScoreDesc]
    rw [filter_insertDesc]
    by_cases hx : x.matchScore = s <;> simp [List.filter_cons, hx, ih]

/-- C4: the list returned by `findMatchingProducts` is sorted non-increasing
by matchScore, and for every score the sub-list of results carrying that
score equals the corresponding sub-list of the scored-but-unsorted
filter-chain output — i.e. ties retain their filter-chain relative order
(the final sort is stable). -/
theorem c4_sorted_stable (allProducts : List Product) (spec : Specification) :
    (findMatchingProducts allProducts spec).Pairwise (fun a b => b.matchScore ≤ a.matchScore) ∧
    ∀ s : Int, (findMatchingProducts allProducts spec).filter (fun m => m.matchScore == s) =
      (preSortMatches allProducts spec).filter (fun m => m.matchScore == s) :=
  ⟨sortByScoreDesc_pairwise _, fun s => sortByScoreDesc_filter _ s⟩

/-- Equational form of the eco step of `findMatchingProducts`: when a
preference is set, the scored candidate set is the eco-narrowed set unless
that set is empty, in which case the narrowing is discarded. -/
theorem candidatesAfterFilters_eq (allProducts : List Product) (spec : Specification)
    (h : (spec.ecoFriendlyPreference || spec.sustainablePreference) = true) :
    candidatesAfterFilters allProducts spec =
      if filterByEcoPreferences (candidatesBeforeEco allProducts spec)
          ⟨spec.ecoFriendlyPreference, spec.sustainablePreference, false⟩ = []
      then candidatesBeforeEco allProducts spec
      else filterByEcoPreferences (candidatesBeforeEco allProducts spec)
          ⟨spec.ecoFriendlyPreference, spec.sustainablePreference, false⟩ := by
  simp only [candidatesAfterFilters, h, if_true]
  rcases eq_or_ne (filterByEcoPreferences (candidatesBeforeEco allProducts spec)
      ⟨spec.ecoFriendlyPreference, spec.sustainablePreference, false⟩) [] with he | he
  · rw [if_pos he, he]
    simp
  · rw [if_neg he, if_pos (List.length_pos.2 he)]

/-- C3: with an eco-friendly and/or sustainable preference set, the
candidate set actually scored is the eco-narrowed set when that set is
non-empty, and the un-narrowed set surviving filters 1–4 when the
narrowing would leave nothing; hence the environmental preference never
turns a non-empty candidate set into an empty result. -/
theorem c3_eco_graceful (allProducts : List Product) (spec : Specification)
    (h : spec.ecoFriendlyPreference = true ∨ spec.sustainablePreference = true) :
    (filterByEcoPreferences (candidatesBeforeEco allProducts spec)
        ⟨spec.ecoFriendlyPreference, spec.sustainablePreference, false⟩ = [] →
      candidatesAfterFilters allProducts spec = candidatesBeforeEco allProducts spec) ∧
    (filterByEcoPreferences (candidatesBeforeEco allProducts spec)
        ⟨spec.ecoFriendlyPreference, spec.sustainablePreference, false⟩ ≠ [] →
      candidatesAfterFilters allProducts spec =
        filterByEcoPreferences (candidatesBeforeEco allProducts spec)
          ⟨spec.ecoFriendlyPreference, spec.sustainablePreference, false⟩) ∧
    (candidatesBeforeEco allProducts spec ≠ [] →
      candidatesAfterFilters allProducts spec ≠ [] ∧
      findMatchingProducts allProducts spec ≠ []) := by
  have hcond : (spec.ecoFriendlyPreference || spec.sustainablePreference) = true := by
    rcases h with h | h <;> simp [h]
  have heq := candidatesAfterFilters_eq allProducts spec hcond
  refine ⟨fun he => by rw [heq, if_pos he], fun he => by rw [heq, if_neg he], fun hne => ?_⟩
  have hafter : candidatesAfterFilters allProducts spec ≠ [] := by
    rw [heq]
    split
    · exact hne
    · rename_i he
      exact he
  refine ⟨hafter, fun hcontra => hafter ?_⟩
  have hlen : (findMatchingProducts allProducts spec).length =
      (candidatesAfterFilters allProducts spec).length :=
    ((sortByScoreDesc_perm (preSortMatches allProducts spec)).length_eq).trans
      (List.length_map _ _)
  rw [hcontra] at hlen
  exact List.length_eq_zero.1 hlen.symm

/-- C3 witness: the Scenario A product is not eco-friendly, so with the
eco preference switched on the narrowing would empty the candidate set;
the filter is discarded and the result stays non-empty. -/
theorem c3_witness :
    filterByEcoPreferences (candidatesBeforeEco [scenarioAProduct] ecoSpec)
      ⟨ecoSpec.ecoFriendlyPreference, ecoSpec.sustainablePreference, false⟩ = [] ∧
    candidatesAfterFilters [scenarioAProduct] ecoSpec = candidatesBeforeEco [scenarioAProduct] ecoSpec ∧
    candidatesBeforeEco [scenarioAProduct] ecoSpec = [scenarioAProduct] ∧
    findMatchingProducts [scenarioAProduct] ecoSpec ≠ [] :=
  ⟨by decide,
   (c3_eco_graceful [scenarioAProduct] ecoSpec (Or.inl rfl)).1 (by decide),
   by decide,
   ((c3_eco_graceful [scenarioAProduct] ecoSpec (Or.inl rfl)).2.2 (by decide)).2⟩

theorem addMatch_keys (acc : List (String × List MatchResult)) (m : MatchResult) :
    (addMatch acc m).map Prod.fst =
      if acc.any (fun p => p.1 == m.product.category) = true then acc.map Prod.fst
      else acc.map Prod.fst ++ [m.product.category] := by
  unfold addMatch
  by_cases hin : acc.any (fun p => p.1 == m.product.category) = true
  · rw [if_pos hin, if_pos hin, List.map_map]
    refine List.map_congr_left fun p hp => ?_
    by_cases hc : (p.1 == m.product.category) = true <;> simp [Function.comp, hc]
  · rw [if_neg hin, if_neg hin, List.map_append]
    rfl

theorem addMatch_step (processed : List MatchResult) (acc : List (String × List MatchResult)) (m : MatchResult)
    (hnd : (acc.map Prod.fst).Nodup)
    (hmem : ∀ c bucket, (c, bucket) ∈ acc → bucket = processed.filter (fun x => x.product.category == c))
    (habs : ∀ c, c ∉ acc.map Prod.fst → processed.filter (fun x => x.product.category == c) = []) :
    ((addMatch acc m).map Prod.fst).Nodup ∧
    (∀ c bucket, (c, bucket) ∈ addMatch acc m →
      bucket = (processed ++ [m]).filter (fun x => x.product.category == c)) ∧
    (∀ c, c ∉ (addMatch acc m).map Prod.fst →
      (processed ++ [m]).filter (fun x => x.product.category == c) = []) := by
  have hsing : ∀ c : String, [m].filter (fun x => x.product.category == c) =
      if m.product.category = c then [m] else [] := by
    intro c
    by_cases hc : m.product.category = c <;> simp [List.filter_cons, hc]
  by_cases hin : acc.any (fun p => p.1 == m.product.category) = true
  · have hcm_mem : m.product.category ∈ acc.map Prod.fst := by
      obtain ⟨p, hp, hpc⟩ := List.any_eq_true.1 hin
      exact List.mem_map.2 ⟨p, hp, beq_iff_eq.1 hpc⟩
    refine ⟨?_, ?_, ?_⟩
    · rw [addMatch_keys, if_pos hin]
      exact hnd
    · intro c bucket hb
      unfold addMatch at hb
      rw [if_pos hin] at hb
      obtain ⟨p, hp, hup⟩ := List.mem_map.1 hb
      by_cases hc : (p.1 == m.product.category) = true
      · rw [if_pos hc] at hup
        have hc1 : p.1 = c := congrArg Prod.fst hup
        have hc2 : p.2 ++ [m] = bucket := congrArg Prod.snd hup
        have hmc : m.product.category = c := by
          rw [← hc1]
          exact (beq_iff_eq.1 hc).symm
        have hbp : p.2 = processed.filter (fun x => x.product.category == c) := by
          subst hc1
          exact hmem p.1 p.2 (by simpa using hp)
        rw [List.filter_append, hsing, if_pos hmc, ← hc2, hbp]
      · rw [if_neg hc] at hup
        have hc1 : p.1 = c := congrArg Prod.fst hup
        have hc2 : p.2 = bucket := congrArg Prod.snd hup
        have hne : m.product.category ≠ c := by
          intro hcc
          exact hc (beq_iff_eq.2 (hc1.trans hcc.symm))
        have hbp : bucket = processed.filter (fun x => x.product.category == c) := by
          rw [← hc2]
          subst hc1
          exact hmem p.1 p.2 (by simpa using hp)
        rw [List.filter_append, hsing, if_neg hne, List.append_nil]
        exact hbp
    · intro c hc
      rw [addMatch_keys, if_pos hin] at hc
      have hne : m.product.category ≠ c := fun hcc => hc (hcc ▸ hcm_mem)
      rw [List.filter_append, habs c hc, hsing, if_neg hne, List.append_nil]
  · have hnot : ∀ p ∈ acc, (p.1 == m.product.category) = false := by
      have := List.any_eq_false.1 (Bool.eq_false_iff.2 hin)
      intro p hp
      exact Bool.eq_false_iff.2 (this p hp)
    have hcm_notin : m.product.category ∉ acc.map Prod.fst := by
      intro hcc
      obtain ⟨p, hp, hpc⟩ := List.mem_map.1 hcc
      have := hnot p hp
      rw [hpc] at this
      simp at this
    have haddeq : addMatch acc m = acc ++ [(m.product.category, [m])] := by
      unfold addMatch
      rw [if_neg hin]
    refine ⟨?_, ?_, ?_⟩
    · rw [addMatch_keys, if_neg hin, List.nodup_append]
      exact ⟨hnd, List.nodup_singleton _, List.disjoint_singleton.2 hcm_notin⟩
    · intro c bucket hb
      rw [haddeq] at hb
      rcases List.mem_append.1 hb with hleft | hright
      · have hkey : c ∈ acc.map Prod.fst := List.mem_map.2 ⟨(c, bucket), hleft, rfl⟩
        have hne : m.product.category ≠ c := fun hcc => hcm_notin (hcc ▸ hkey)
        rw [List.filter_append, hsing, if_neg hne, List.append_nil]
        exact hmem c bucket hleft
      · rw [List.mem_singleton] at hright
        obtain ⟨hc1, hc2⟩ := Prod.mk.injEq _ _ _ _ ▸ hright.symm
        subst hc1
        rw [List.filter_append, habs _ hcm_notin, hsing, if_pos rfl, List.nil_append, hc2]
    · intro c hc
      rw [addMatch_keys, if_neg hin] at hc
      rw [List.mem_append, List.mem_singleton] at hc
      push_neg at hc
      rw [List.filter_append, habs c hc.1, hsing, if_neg (Ne.symm hc.2)]
      simp

theorem foldl_addMatch_spec (rest : List MatchResult) :
    ∀ (processed : List MatchResult) (acc : List (String × List MatchResult)),
      (acc.map Prod.fst).Nodup →
      (∀ c bucket, (c, bucket) ∈ acc → bucket = processed.filter (fun x => x.product.category == c)) →
      (∀ c, c ∉ acc.map Prod.fst → processed.filter (fun x => x.product.category == c) = []) →
      ((rest.foldl addMatch acc).map Prod.fst).Nodup ∧
      (∀ c bucket, (c, bucket) ∈ rest.foldl addMatch acc →
        bucket = (processed ++ rest).filter (fun x => x.product.category == c)) ∧
      (∀ c, c ∉ (rest.foldl addMatch acc).map Prod.fst →
        (processed ++ rest).filter (fun x => x.product.category == c) = []) := by
  induction rest with
  | nil =>
    intro processed acc hnd hmem habs
    simp only [List.foldl_nil, List.append_nil]
    exact ⟨hnd, hmem, habs⟩
  | cons m rest ih =>
    intro processed acc hnd hmem habs
    have hstep := addMatch_step processed acc m hnd hmem habs
    have hrec := ih (processed ++ [m]) (addMatch acc m) hstep.1 hstep.2.1 hstep.2.2
    rw [List.foldl_cons]
    rw [List.append_cons processed m rest]
    exact hrec

/-- Characterisation of the `byCategory` grouping: its keys are pairwise
distinct, every bucket is exactly the sub-list of input matches of that
category, and a category with no key has no matches. -/
theorem groupByCategory_spec (ms : List MatchResult) :
    ((groupByCategory ms).map Prod.fst).Nodup ∧
    (∀ c bucket, (c, bucket) ∈ groupByCategory ms →
      bucket = ms.filter (fun x => x.product.category == c)) ∧
    (∀ c, c ∉ (groupByCategory ms).map Prod.fst →
      ms.filter (fun x => x.product.category == c) = []) := by
  have h := foldl_addMatch_spec ms [] []
    (by simp)
    (by intro c bucket hb; cases hb)
    (by intro c hc; rfl)
  rw [List.nil_append] at h
  exact h

theorem breakdownOf_keys_sublist (gs : List (String × List MatchResult)) :
    ((breakdownOf gs).map Prod.fst).Sublist (gs.map Prod.fst) := by
  induction gs with
  | nil => simp [breakdownOf]
  | cons g gs ih =>
    obtain ⟨cg, ms⟩ := g
    cases ms with
    | nil =>
      simp only [breakdownOf, List.map_cons]
      exact ih.cons _
    | cons b r =>
      simp only [breakdownOf, List.map_cons]
      exact ih.cons₂ _

theorem breakdownOf_mem {gs : List (String × List MatchResult)} {c : String} {e : BreakdownEntry}
    (h : (c, e) ∈ breakdownOf gs) :
    ∃ bucket best rest, (c, bucket) ∈ gs ∧ bucket = best :: rest ∧
      e = { product := best.product.productName
            cost := best.product.price
            deliveryDate := best.estimatedDelivery } := by
  induction gs with
  | nil => cases h
  | cons g gs ih =>
    obtain ⟨cg, ms⟩ := g
    cases ms with
    | nil =>
      simp only [breakdownOf] at h
      obtain ⟨bucket, best, rest, hmem, hb, he⟩ := ih h
      exact ⟨bucket, best, rest, List.mem_cons_of_mem _ hmem, hb, he⟩
    | cons best0 rest0 =>
      simp only [breakdownOf] at h
      rcases List.mem_cons.1 h with heq | htail
      · have hc1 : c = cg := congrArg Prod.fst heq
        have hc2 : e = { product := best0.product.productName
                         cost := best0.product.price
                         deliveryDate := best0.estimatedDelivery } := congrArg Prod.snd heq
        subst hc1
        exact ⟨best0 :: rest0, best0, rest0, List.mem_cons_self _ _, rfl, hc2⟩
      · obtain ⟨bucket, best, rest, hmem, hb, he⟩ := ih htail
        exact ⟨bucket, best, rest, List.mem_cons_of_mem _ hmem, hb, he⟩

theorem totalCostOf_eq_sum (gs : List (String × List MatchResult)) :
    totalCostOf gs = ((breakdownOf gs).map (fun p => p.2.cost)).sum := by
  induction gs with
  | nil => rfl
  | cons g gs ih =>
    obtain ⟨cg, ms⟩ := g
    cases ms with
    | nil => simpa [totalCostOf, breakdownOf] using ih
    | cons b r => simp [totalCostOf, breakdownOf, ih]

theorem find?_eq_head?_filter {α : Type} (p : α → Bool) (l : List α) :
    l.find? p = (l.filter p).head? := by
  induction l with
  | nil => rfl
  | cons a l ih =>
    by_cases h : p a = true
    · rw [List.find?_cons_of_pos _ h, List.filter_cons, if_pos h, List.head?_cons]
    · rw [List.find?_cons_of_neg _ h, List.filter_cons, if_neg h, ih]

theorem find?_congr_on {α : Type} {p q : α → Bool} {l : List α} (h : ∀ x ∈ l, p x = q x) :
    l.find? p = l.find? q := by
  induction l with
  | nil => rfl
  | cons a l ih =>
    have ha := h a (List.mem_cons_self a l)
    by_cases hp : p a = true
    · rw [List.find?_cons_of_pos _ hp, List.find?_cons_of_pos _ (ha ▸ hp)]
    · have hq : ¬ q a = true := by
        rw [← ha]
        exact hp
      rw [List.find?_cons_of_neg _ hp, List.find?_cons_of_neg _ hq]
      exact ih fun x hx => h x (List.mem_cons_of_mem _ hx)

/-- On the sorted output, the first match of a category is exactly the
claim's "single highest-scored match of that category, ties broken by
first-encountered pre-sort order". -/
theorem head_filter_eq_firstBestIn (pre : List MatchResult) (c : String) :
    ((sortByScoreDesc pre).filter (fun m => m.product.category == c)).head? =
      firstBestIn pre c := by
  have hperm : ((sortByScoreDesc pre).filter (fun m => m.product.category == c)).Perm
      (pre.filter (fun m => m.product.category == c)) :=
    (sortByScoreDesc_perm pre).filter _
  cases hlc : (sortByScoreDesc pre).filter (fun m => m.product.category == c) with
  | nil =>
    rw [hlc] at hperm
    have hpc : pre.filter (fun m => m.product.category == c) = [] := hperm.symm.eq_nil
    simp [firstBestIn, hpc]
  | cons b rest =>
    rw [hlc] at hperm
    have hsorted : ((sortByScoreDesc pre).filter (fun m => m.product.category == c)).Pairwise
        (fun a b2 => b2.matchScore ≤ a.matchScore) :=
      List.Pairwise.sublist (List.filter_sublist (sortByScoreDesc pre))
        (sortByScoreDesc_pairwise pre)
    rw [hlc, List.pairwise_cons] at hsorted
    have hmax_pc : ∀ x ∈ pre.filter (fun m => m.product.category == c),
        x.matchScore ≤ b.matchScore := by
      intro x hx
      rcases List.mem_cons.1 (hperm.mem_iff.2 hx) with rfl | hx''
      · exact le_refl _
      · exact hsorted.1 x hx''
    have hb_pc : b ∈ pre.filter (fun m => m.product.category == c) :=
      hperm.subset (List.mem_cons_self _ _)
    have hpred : ∀ x ∈ pre.filter (fun m => m.product.category == c),
        ((pre.filter (fun m => m.product.category == c)).all
          (fun m2 => m2.matchScore ≤ x.matchScore)) = (x.matchScore == b.matchScore) := by
      intro x hx
      rw [Bool.eq_iff_iff, List.all_eq_true, beq_iff_eq]
      constructor
      · intro hall
        exact le_antisymm (hmax_pc x hx) (by simpa using hall b hb_pc)
      · intro heq y hy
        simp only [decide_eq_true_eq]
        rw [heq]
        exact hmax_pc y hy
    have h1 : firstBestIn pre c =
        ((pre.filter (fun m => m.product.category == c)).filter
          (fun m => m.matchScore == b.matchScore)).head? := by
      unfold firstBestIn
      rw [find?_congr_on hpred, find?_eq_head?_filter]
    have hcomm : ∀ (l : List MatchResult),
        (l.filter (fun m => m.product.category == c)).filter
            (fun m => m.matchScore == b.matchScore) =
          (l.filter (fun m => m.matchScore == b.matchScore)).filter
            (fun m => m.product.category == c) := by
      intro l
      rw [List.filter_filter, List.filter_filter]
      exact List.filter_congr fun a _ => Bool.and_comm _ _
    have h2 : (pre.filter (fun m => m.product.category == c)).filter
          (fun m => m.matchScore == b.matchScore) =
        ((sortByScoreDesc pre).filter (fun m => m.product.category == c)).filter
          (fun m => m.matchScore == b.matchScore) := by
      rw [hcomm pre, hcomm (sortByScoreDesc pre), sortByScoreDesc_filter]
    rw [h1, h2, hlc, List.filter_cons, if_pos (by simp), List.head?_cons, List.head?_cons]

/-- C7: on the output of `findMatchingProducts`, the analysis breakdown has
at most one entry per distinct category; each entry records the price (and
name) of the single highest-scored match of its category, ties broken by
first-encountered pre-sort filter-chain order; and the estimated total cost
is the sum of the per-category costs. -/
theorem c7_category_breakdown (allProducts : List Product) (spec : Specification) :
    ((analyzeProject (findMatchingProducts allProducts spec) spec).categoryBreakdown.map Prod.fst).Nodup ∧
    (∀ c e, (c, e) ∈ (analyzeProject (findMatchingProducts allProducts spec) spec).categoryBreakdown →
      ∃ m, firstBestIn (preSortMatches allProducts spec) c = some m ∧
        e.cost = m.product.price ∧ e.product = m.product.productName) ∧
    (analyzeProject (findMatchingProducts allProducts spec) spec).estimatedTotalCost =
      ((analyzeProject (findMatchingProducts allProducts spec) spec).categoryBreakdown.map
        (fun p => p.2.cost)).sum := by
  have hbd : (analyzeProject (findMatchingProducts allProducts spec) spec).categoryBreakdown
      = breakdownOf (groupByCategory (findMatchingProducts allProducts spec)) := rfl
  have htc : (analyzeProject (findMatchingProducts allProducts spec) spec).estimatedTotalCost
      = totalCostOf (groupByCategory (findMatchingProducts allProducts spec)) := rfl
  refine ⟨?_, ?_, ?_⟩
  · rw [hbd]
    exact (breakdownOf_keys_sublist _).nodup (groupByCategory_spec _).1
  · intro c e he
    rw [hbd] at he
    obtain ⟨bucket, best, rest, hmem, hb, hee⟩ := breakdownOf_mem he
    have hbucket := (groupByCategory_spec (findMatchingProducts allProducts spec)).2.1 c bucket hmem
    have hfe : (findMatchingProducts allProducts spec).filter (fun x => x.product.category == c)
        = best :: rest := hbucket.symm.trans hb
    have hhead := head_filter_eq_firstBestIn (preSortMatches allProducts spec) c
    rw [show sortByScoreDesc (preSortMatches allProducts spec)
        = findMatchingProducts allProducts spec from rfl, hfe, List.head?_cons] at hhead
    subst hee
    exact ⟨best, hhead.symm, rfl, rfl⟩
  · rw [htc, hbd]
    exact totalCostOf_eq_sum _

/-- C7 witness: the Scenario A analysis has the single breakdown entry
for Lumber, and its cost is the price of the first best Lumber match. -/
theorem c7_witness :
    ((analyzeProject (findMatchingProducts [scenarioAProduct] scenarioASpec) scenarioASpec).categoryBreakdown.map Prod.fst).Nodup ∧
    ∃ m, firstBestIn (preSortMatches [scenarioAProduct] scenarioASpec) "Lumber" = some m ∧
      ({ product := "Pine Lumber", cost := 100, deliveryDate := 7 } : BreakdownEntry).cost = m.product.price ∧
      ({ product := "Pine Lumber", cost := 100, deliveryDate := 7 } : BreakdownEntry).product = m.product.productName :=
  ⟨(c7_category_breakdown [scenarioAProduct] scenarioASpec).1,
   (c7_category_breakdown [scenarioAProduct] scenarioASpec).2.1 "Lumber"
     { product := "Pine Lumber", cost := 100, deliveryDate := 7 } (by decide)⟩

/-- Membership in a conditional singleton forces equality. -/
theorem eq_of_mem_ite_singleton {α : Type} {r x : α} {c : Prop} [Decidable c]
    (h : r ∈ (if c then [x] else ([] : List α))) : r = x := by
  split at h
  · exact List.mem_singleton.1 h
  · cases h

/-- Shape of the risks list assembled by `analyzeProject`, in source push
order: budget risk, timeline risk, missing-category risk. -/
theorem analyzeProject_risks (ms : List MatchResult) (spec : Specification) :
    (analyzeProject ms spec).risks =
      (match spec.maxBudget with
       | some b =>
         if b ≠ 0 ∧ totalCostOf (groupByCategory ms) > b then
           [Risk.overBudget (totalCostOf (groupByCategory ms)) b]
         else []
       | none => []) ++
      (if (ms.filter (fun m => !m.meetsTimeline)).length > 0 then
         [Risk.cannotMeetTimeline (ms.filter (fun m => !m.meetsTimeline)).length]
       else []) ++
      (match spec.requiredCategories with
       | some cats =>
         if (cats.filter (fun cat =>
              !((breakdownOf (groupByCategory ms)).map Prod.fst).contains cat)).length > 0 then
           [Risk.missingCategories (cats.filter (fun cat =>
              !((breakdownOf (groupByCategory ms)).map Prod.fst).contains cat))]
         else []
       | none => []) := by
  rcases hb : spec.maxBudget with _ | b <;> rcases hc : spec.requiredCategories with _ | cats <;>
    simp only [analyzeProject, hb, hc] <;> simp

/-- C8: `analyzeProject` degrades gracefully — with no maximum budget there
is no budget risk, with no required categories there is no missing-category
risk, and an empty match list yields a well-formed analysis with total cost
0, a feasible timeline and no timeline risk. -/
theorem c8_graceful (ms : List MatchResult) (spec : Specification) :
    (spec.maxBudget = none →
      ∀ r ∈ (analyzeProject ms spec).risks, ∀ cost budget, r ≠ Risk.overBudget cost budget) ∧
    (spec.requiredCategories = none ∨ spec.requiredCategories = some [] →
      ∀ r ∈ (analyzeProject ms spec).risks, ∀ cats, r ≠ Risk.missingCategories cats) ∧
    (ms = [] →
      (analyzeProject ms spec).estimatedTotalCost = 0 ∧
      (analyzeProject ms spec).timelineAnalysis.feasible = true ∧
      ∀ r ∈ (analyzeProject ms spec).risks, ∀ n, r ≠ Risk.cannotMeetTimeline n) := by
  refine ⟨?_, ?_, ?_⟩
  · intro hb r hr cost budget
    rw [analyzeProject_risks] at hr
    rcases hc : spec.requiredCategories with _ | cats <;>
      simp only [hb, hc, List.nil_append, List.append_nil] at hr
    · have := eq_of_mem_ite_singleton hr
      subst this
      simp
    · rcases List.mem_append.1 hr with h | h <;>
        · have := eq_of_mem_ite_singleton h
          subst this
          simp
  · intro hcats r hr cats
    rw [analyzeProject_risks] at hr
    have hmiss : (match spec.requiredCategories with
       | some cs =>
         if (cs.filter (fun cat =>
              !((breakdownOf (groupByCategory ms)).map Prod.fst).contains cat)).length > 0 then
           [Risk.missingCategories (cs.filter (fun cat =>
              !((breakdownOf (groupByCategory ms)).map Prod.fst).contains cat))]
         else []
       | none => []) = ([] : List Risk) := by
      rcases hcats with h | h <;> simp [h]
    rw [hmiss, List.append_nil] at hr
    rcases hb : spec.maxBudget with _ | b <;>
      simp only [hb, List.nil_append] at hr
    · have := eq_of_mem_ite_singleton hr
      subst this
      simp
    · rcases List.mem_append.1 hr with h | h <;>
        · have := eq_of_mem_ite_singleton h
          subst this
          simp
  · intro hms
    subst hms
    refine ⟨rfl, rfl, ?_⟩
    intro r hr n
    rw [analyzeProject_risks] at hr
    rw [show (([] : List MatchResult).filter (fun m => !m.meetsTimeline)).length = 0 from rfl] at hr
    rw [if_neg (by norm_num : ¬ ((0:Nat) > 0)), List.append_nil] at hr
    rcases hb : spec.maxBudget with _ | b <;> rcases hc : spec.requiredCategories with _ | cats <;>
      simp only [hb, hc, List.nil_append, List.append_nil, List.not_mem_nil] at hr
    · have := eq_of_mem_ite_singleton hr
      subst this
      simp
    · have := eq_of_mem_ite_singleton hr
      subst this
      simp
    · rcases List.mem_append.1 hr with h | h <;>
        · have := eq_of_mem_ite_singleton h
          subst this
          simp

/-- C8 witness: the degenerate analysis of no matches under a specification
with no budget and no required categories. -/
theorem c8_witness :
    (∀ r ∈ (analyzeProject [] emptySpec).risks, ∀ cost budget, r ≠ Risk.overBudget cost budget) ∧
    (∀ r ∈ (analyzeProject [] emptySpec).risks, ∀ cats, r ≠ Risk.missingCategories cats) ∧
    (analyzeProject [] emptySpec).estimatedTotalCost = 0 ∧
    (analyzeProject [] emptySpec).timelineAnalysis.feasible = true ∧
    ∀ r ∈ (analyzeProject [] emptySpec).risks, ∀ n, r ≠ Risk.cannotMeetTimeline n :=
  ⟨(c8_graceful [] emptySpec).1 rfl,
   (c8_graceful [] emptySpec).2.1 (Or.inl rfl),
   ((c8_graceful [] emptySpec).2.2 rfl).1,
   ((c8_graceful [] emptySpec).2.2 rfl).2.1,
   ((c8_graceful [] emptySpec).2.2 rfl).2.2⟩
